import Mathlib

/-!
# Verification of the 5G-backhaul energy-aware link power-state controller

Shallow embedding of the link power-state controller of this repository:

* `ryu_controller.py` — `EnergyAwareController._build_topology` builds the
  ordered link map served to the energy manager (`buildTopology` below).
* `energy_manager.py` — `EnergyManager` holds the per-link states
  (`link_states`, an insertion-ordered dict modelled as an association
  list), ingests forecasts (`_update_predictions`), runs the per-cycle
  sleep/wake decision (`_link_management` with `_is_safe_to_sleep` and its
  two helpers), and records energy metrics
  (`calculate_energy_consumption`, `_metrics_collector`).

Link identifiers in the source are the strings `link_1` … `link_39`; we
encode the identifier `link_i` as the natural number `i` (the code's
`int(link_id.split('_')[1])` is then the identity).  Forecast entries whose
`link_id` field is missing or is not of this shape are never keys of
`link_states`, so any natural number outside the topology faithfully
represents them.  Utilization ratios are modelled as rationals (the Python
floats carry small decimal values; no claim depends on rounding).  The
hardware-address strings in each link tuple are display data derived from
the dpid/port fields and are read by no logic, so edges keep only the
dpid/port fields.
-/

namespace Backhaul

/-- One endpoint pair of a link, from the tuples built by
`EnergyAwareController._build_topology`: `(dpid_a, port_a, dpid_b, port_b)`.
A negative `dpidB` denotes a host endpoint keyed by `-hostIndex`. -/
structure Edge where
  dpidA : ℤ
  portA : ℕ
  dpidB : ℤ
  portB : ℕ
deriving DecidableEq, Repr

/-- One value of the `link_states` dict of `EnergyManager`:
`{'active': bool, 'utilization': float}`. -/
structure LinkState where
  active : Bool
  utilization : ℚ
deriving DecidableEq, Repr

/-- `link_states` is a Python dict (insertion ordered); modelled as an
association list whose order is the insertion order. -/
abbrev States := List (ℕ × LinkState)

/-- Dict lookup `link_states.get(link_id)`. -/
def lookupState : States → ℕ → Option LinkState
  | [], _ => none
  | p :: rest, id => if p.1 = id then some p.2 else lookupState rest id

/-- `link_states[l]['active']` read (a missing key would raise a `KeyError`
in the source; every key the logic reads exists in every topology the
controller builds, and we default to `false`). -/
def activeD (s : States) (id : ℕ) : Bool :=
  (lookupState s id).elim false (·.active)

/-- Utilization of a link, defaulting to `0`. -/
def utilD (s : States) (id : ℕ) : ℚ :=
  (lookupState s id).elim 0 (·.utilization)

/-- `EnergyManager._set_link_state`: `link_states[link_id]['active'] = up`
(a no-op on an absent key, as in the source's membership guard). -/
def setActive : States → ℕ → Bool → States
  | [], _, _ => []
  | p :: rest, id, up =>
    (p.1, if p.1 = id then { p.2 with active := up } else p.2) :: setActive rest id up

/-- `link_states[link_id]['utilization'] = v` as performed by
`EnergyManager._update_predictions`. -/
def setUtil : States → ℕ → ℚ → States
  | [], _, _ => []
  | p :: rest, id, v =>
    (p.1, if p.1 = id then { p.2 with utilization := v } else p.2) :: setUtil rest id v

/-- `self.sleep_threshold = 0.10` in `EnergyManager.__init__`: the
rational `1/10`, written as an explicit normalized fraction so that
concrete evaluation reduces (see `sleepThreshold_eq_one_tenth`). -/
def sleepThreshold : ℚ := ⟨1, 10, by decide, Nat.coprime_one_left 10⟩

/-! ## Topology built by `EnergyAwareController._build_topology` -/

/-- The `host_links` table: `(link_id, switch_dpid, switch_port, host_id)`. -/
def hostLinksSpec : List (ℕ × ℕ × ℕ × ℕ) :=
  [(1, 4, 1, 1), (2, 5, 1, 1), (3, 4, 2, 2), (4, 6, 1, 2),
   (5, 5, 2, 3), (6, 7, 1, 3), (7, 6, 2, 4), (8, 8, 1, 4),
   (9, 7, 2, 5), (10, 9, 1, 5), (11, 6, 3, 6), (12, 8, 2, 6),
   (13, 9, 2, 7), (14, 5, 3, 7), (15, 4, 3, 8), (16, 6, 4, 8),
   (17, 5, 4, 9), (18, 7, 3, 9), (19, 6, 5, 10), (20, 8, 3, 10),
   (21, 7, 4, 11), (22, 9, 3, 11), (23, 8, 4, 12), (24, 9, 4, 12)]

/-- The `core_links` table: `(link_id, dpid_a, port_a, dpid_b, port_b)`. -/
def coreLinksSpec : List (ℕ × ℕ × ℕ × ℕ × ℕ) :=
  [(25, 1, 1, 2, 1), (26, 1, 2, 3, 1), (27, 2, 2, 3, 2)]

/-- The `core_agg_links` table: `(link_id, dpid_a, port_a, dpid_b, port_b)`. -/
def coreAggLinksSpec : List (ℕ × ℕ × ℕ × ℕ × ℕ) :=
  [(28, 1, 3, 4, 3), (29, 2, 3, 4, 4), (30, 1, 4, 5, 3), (31, 3, 3, 5, 4),
   (32, 2, 4, 6, 5), (33, 3, 4, 6, 6), (34, 1, 5, 7, 4), (35, 2, 5, 7, 5),
   (36, 1, 6, 8, 5), (37, 3, 5, 8, 6), (38, 2, 6, 9, 6), (39, 3, 6, 9, 7)]

/-- `EnergyAwareController._build_topology`: the insertion-ordered
`link_index_to_edge` map.  Host links put the host endpoint second with a
negative dpid `-host_id` and port `1`, exactly as in the source. -/
def buildTopology : List (ℕ × Edge) :=
  hostLinksSpec.map
    (fun q => (q.1, ⟨(q.2.1 : ℤ), q.2.2.1, -(q.2.2.2 : ℤ), 1⟩))
  ++ (coreLinksSpec ++ coreAggLinksSpec).map
    (fun q => (q.1, ⟨(q.2.1 : ℤ), q.2.2.1, (q.2.2.2.1 : ℤ), q.2.2.2.2⟩))

/-- Lookup in `link_index_to_edge`. -/
def edgeOf (topo : List (ℕ × Edge)) (id : ℕ) : Option Edge :=
  match topo with
  | [] => none
  | p :: rest => if p.1 = id then some p.2 else edgeOf rest id

/-- The keys of `link_index_to_edge` in insertion order. -/
def topoIds : List ℕ := buildTopology.map Prod.fst

/-- `get_topology_from_ryu` initialization:
`link_states[link_id] = {'active': True, 'utilization': 0.0}` for every
link of the fetched topology, in map order. -/
def initStates (topo : List (ℕ × Edge)) : States :=
  topo.map (fun p => (p.1, ⟨true, 0⟩))

/-- Initial link states of the controller over the discovered topology. -/
def initialStates : States := initStates buildTopology

/-! ## Safety evaluator (`EnergyManager._is_safe_to_sleep` and helpers) -/

/-- The `host_to_links` dict of `_is_safe_to_sleep_host_link`
(`'h1': ['link_1', 'link_2']`, …), with host names `hk` encoded by `k`. -/
def hostToLinks : List (ℕ × List ℕ) :=
  [(1, [1, 2]), (2, [3, 4]), (3, [5, 6]), (4, [7, 8]),
   (5, [9, 10]), (6, [11, 12]), (7, [13, 14]), (8, [15, 16]),
   (9, [17, 18]), (10, [19, 20]), (11, [21, 22]), (12, [23, 24])]

/-- `EnergyManager._is_safe_to_sleep_host_link`. -/
def isSafeToSleepHostLink (s : States) (id : ℕ) (hostId : ℕ) : Bool :=
  match hostToLinks.lookup hostId with
  | none => false
  | some hostLinks =>
    if hostLinks.contains id then
      hostLinks.any (fun other => other != id && activeD s other)
    else false

/-- The `agg_switch_to_core_links` dict of
`_is_safe_to_sleep_aggregation_core_link`. -/
def aggSwitchToCoreLinks : List (ℕ × List ℕ) :=
  [(4, [25, 26]), (5, [27, 28]), (6, [29, 30]),
   (7, [31, 32]), (8, [33, 34]), (9, [35, 36])]

/-- `EnergyManager._is_safe_to_sleep_aggregation_core_link`: find the
aggregation switch owning the link; safe iff another of its core links is
active; `True` when the link is in no row (the source's trailing return). -/
def isSafeToSleepAggregationCoreLink (s : States) (id : ℕ) : Bool :=
  match aggSwitchToCoreLinks.find? (fun p => p.2.contains id) with
  | some p => p.2.any (fun other => other != id && activeD s other)
  | none => true

/-- `EnergyManager._is_safe_to_sleep`.  The branch order follows the
source: unknown id → `False`; host endpoint (`dpid_b < 0`) → host check;
ids `37`–`39` → `True`; ids `25`–`36` → aggregation check; otherwise the
fail-closed `False` (the source's `nx.is_connected` line after it is
unreachable dead code). -/
def isSafeToSleep (topo : List (ℕ × Edge)) (s : States) (id : ℕ) : Bool :=
  match edgeOf topo id with
  | none => false
  | some e =>
    if e.dpidB < 0 then
      isSafeToSleepHostLink s id (-e.dpidB).toNat
    else if id = 37 ∨ id = 38 ∨ id = 39 then true
    else if 25 ≤ id ∧ id ≤ 36 then isSafeToSleepAggregationCoreLink s id
    else false

/-! ## Per-cycle state controller (`EnergyManager._link_management`) -/

/-- The body of the `for link_id in all_link_ids` loop of
`_link_management`: skip absent ids; wake a sleeping link whose
utilization reached the threshold; sleep an active link below the
threshold when the safety evaluator allows it; otherwise leave it. -/
def linkStep (topo : List (ℕ × Edge)) (s : States) (id : ℕ) : States :=
  match lookupState s id with
  | none => s
  | some st =>
    if st.active = false ∧ sleepThreshold ≤ st.utilization then
      setActive s id true
    else if st.active = true ∧ st.utilization < sleepThreshold then
      if isSafeToSleep topo s id = true then setActive s id false else s
    else s

/-- `EnergyManager._link_management`: iterate the loop body over the key
list snapshot `list(self.link_states.keys())`. -/
def linkManagement (topo : List (ℕ × Edge)) (s : States) : States :=
  (s.map Prod.fst).foldl (linkStep topo) s

/-! ## Prediction ingestion (`EnergyManager._update_predictions`) -/

/-- `_update_predictions`: for each forecast entry (its extracted
`link_id` key and `bandwidth_utilization (ratio)` value, the latter
defaulting to `0.0` when the field is absent), overwrite the utilization
when the id is a key of `link_states`, else skip the entry. -/
def updatePredictions (preds : List (ℕ × ℚ)) (s : States) : States :=
  preds.foldl
    (fun acc pred =>
      if (lookupState acc pred.1).isSome then setUtil acc pred.1 pred.2 else acc)
    s

/-! ## Reachable states of the controller

`run_simulation` builds the topology once, then repeats: optionally apply
a forecast, then run link management.  A reachable state is any state
produced from the initial all-active states by a sequence of forecast
applications and link-management cycles. -/

/-- One observable step of the control loop. -/
inductive Step where
  | forecast (preds : List (ℕ × ℚ))
  | manage
deriving Repr

/-- Execute one step on the link states (the topology is the one fetched
from the Ryu controller at startup). -/
def exec (s : States) : Step → States
  | .forecast preds => updatePredictions preds s
  | .manage => linkManagement buildTopology s

/-- The state after a trace of steps from the initial states. -/
def run (tr : List Step) : States := tr.foldl exec initialStates

/-- The forecast entries consumed by a step (`manage` consumes none). -/
def stepPreds : Step → List (ℕ × ℚ)
  | .forecast preds => preds
  | .manage => []

/-! ## Energy metrics -/

/-- `EnergyManager.calculate_energy_consumption`: returns
`(total_energy, active_links, sleeping_links)` with unit costs 100/10. -/
def calculateEnergyConsumption (s : States) : ℕ × ℕ × ℕ :=
  s.foldl
    (fun acc p =>
      if p.2.active then (acc.1 + 100, acc.2.1 + 1, acc.2.2)
      else (acc.1 + 10, acc.2.1, acc.2.2 + 1))
    (0, 0, 0)

/-- The three parallel series of `self.metrics`. -/
structure Metrics where
  hourlyEnergy : List ℕ
  activeLinksHistory : List ℕ
  timestamp : List ℕ
deriving DecidableEq, Repr

/-- `EnergyManager._metrics_collector`: append one energy value, one
active count and one cycle index. -/
def metricsCollector (hour : ℕ) (s : States) (m : Metrics) : Metrics :=
  { hourlyEnergy := m.hourlyEnergy ++ [(calculateEnergyConsumption s).1]
    activeLinksHistory := m.activeLinksHistory ++ [(calculateEnergyConsumption s).2.1]
    timestamp := m.timestamp ++ [hour] }

/-- One iteration of the main loop of `run_simulation`: apply the forecast
when the fetched list is non-empty (`if predictions:`), run link
management, record metrics. -/
def runCycle (hour : ℕ) (preds : List (ℕ × ℚ)) (s : States) (m : Metrics) :
    States × Metrics :=
  let s1 := if preds.isEmpty then s else updatePredictions preds s
  let s2 := linkManagement buildTopology s1
  (s2, metricsCollector hour s2 m)

/-! ## Topology acquisition (`EnergyManager.get_topology_from_ryu`) -/

/-- One poll of the Ryu `/topology` endpoint: either a 200 response whose
parsed body carries the (possibly empty) `topology` mapping, or a failed
or non-200 exchange. -/
inductive RyuResponse where
  | ok (topology : List (ℕ × Edge))
  | failure
deriving Repr

/-- One iteration of the polling loop of `get_topology_from_ryu`: a 200
response installs the mapping and the all-active link states and returns
success; any other outcome yields no result and the loop retries. -/
def getTopologyStep : RyuResponse → Option (List (ℕ × Edge) × States)
  | .ok topo => some (topo, initStates topo)
  | .failure => none

/-! ## Connectivity of the active subgraph -/

/-- Undirected edge list (as dpid pairs) of the links currently active. -/
def activeEdges (topo : List (ℕ × Edge)) (s : States) : List (ℤ × ℤ) :=
  (topo.filter (fun p => activeD s p.1)).map (fun p => (p.2.dpidA, p.2.dpidB))

/-- Undirected reachability over an edge list. -/
inductive Reaches (E : List (ℤ × ℤ)) : ℤ → ℤ → Prop
  | refl (a : ℤ) : Reaches E a a
  | fwd {a b c : ℤ} : Reaches E a b → (b, c) ∈ E → Reaches E a c
  | bwd {a b c : ℤ} : Reaches E a b → (c, b) ∈ E → Reaches E a c

/-- Core switch dpids: `s1`–`s3` are the core tier
(`topology.py`: `core_switches = [addSwitch(f's{i}') for i in range(1, 4)]`). -/
def coreDpids : List ℤ := [1, 2, 3]

/-- Host node ids as they appear as negative dpids in the topology. -/
def hostDpids : List ℤ :=
  [-1, -2, -3, -4, -5, -6, -7, -8, -9, -10, -11, -12]

/-- The node set `{s9, h5, h11, h12}` that the first all-idle cycle cuts
off from the core layer (used as a cut certificate for non-reachability). -/
def sleepIsland : List ℤ := [9, -5, -11, -12]

end Backhaul

namespace Backhaul

/-! ## Basic lemmas about the state map -/

/-- The sleep threshold is the source's `0.10`. -/
theorem sleepThreshold_eq_one_tenth : sleepThreshold = 1 / 10 := by
  rw [sleepThreshold, Rat.mk'_eq_divInt, Rat.divInt_eq_div]
  norm_num

theorem lookupState_setActive (s : States) (id l : ℕ) (b : Bool) :
    lookupState (setActive s id b) l =
      if l = id then (lookupState s l).map (fun st => { st with active := b })
      else lookupState s l := by
  induction s with
  | nil => by_cases h : l = id <;> simp [setActive, lookupState, h]
  | cons p rest ih =>
    by_cases hli : l = id
    · subst hli
      by_cases hpl : p.1 = l <;> simp [setActive, lookupState, hpl, ih]
    · by_cases hpl : p.1 = l <;> simp [setActive, lookupState, hpl, hli, ih]

theorem lookupState_setUtil (s : States) (id l : ℕ) (v : ℚ) :
    lookupState (setUtil s id v) l =
      if l = id then (lookupState s l).map (fun st => { st with utilization := v })
      else lookupState s l := by
  induction s with
  | nil => by_cases h : l = id <;> simp [setUtil, lookupState, h]
  | cons p rest ih =>
    by_cases hli : l = id
    · subst hli
      by_cases hpl : p.1 = l <;> simp [setUtil, lookupState, hpl, ih]
    · by_cases hpl : p.1 = l <;> simp [setUtil, lookupState, hpl, hli, ih]

theorem map_fst_setActive (s : States) (id : ℕ) (b : Bool) :
    (setActive s id b).map Prod.fst = s.map Prod.fst := by
  induction s with
  | nil => rfl
  | cons p rest ih => simp [setActive, ih]

theorem map_fst_setUtil (s : States) (id : ℕ) (v : ℚ) :
    (setUtil s id v).map Prod.fst = s.map Prod.fst := by
  induction s with
  | nil => rfl
  | cons p rest ih => simp [setUtil, ih]

theorem mem_map_fst_of_lookup {s : States} {l : ℕ} {st : LinkState}
    (h : lookupState s l = some st) : l ∈ s.map Prod.fst := by
  induction s with
  | nil => simp [lookupState] at h
  | cons p rest ih =>
    rw [lookupState] at h
    by_cases hpl : p.1 = l
    · simp [hpl]
    · simp only [hpl, if_false] at h
      simp [ih h]

theorem lookupState_isSome_of_mem {s : States} {l : ℕ}
    (h : l ∈ s.map Prod.fst) : (lookupState s l).isSome = true := by
  induction s with
  | nil => simp at h
  | cons p rest ih =>
    rw [lookupState]
    by_cases hpl : p.1 = l
    · simp [hpl]
    · simp only [List.map_cons, List.mem_cons] at h
      rcases h with h | h
      · exact absurd h.symm hpl
      · simp [hpl, ih h]

/-! ## Lemmas about one link-management step -/

/-- `linkStep` either leaves the state unchanged, wakes the processed link,
or — only when the safety evaluator allowed it — sleeps it. -/
theorem linkStep_cases (topo : List (ℕ × Edge)) (s : States) (id : ℕ) :
    linkStep topo s id = s ∨ linkStep topo s id = setActive s id true ∨
      (isSafeToSleep topo s id = true ∧ linkStep topo s id = setActive s id false) := by
  rcases h : lookupState s id with _ | st
  · exact Or.inl (by simp [linkStep, h])
  · by_cases h1 : st.active = false ∧ sleepThreshold ≤ st.utilization
    · exact Or.inr (Or.inl (by simp [linkStep, h, h1]))
    · by_cases h2 : st.active = true ∧ st.utilization < sleepThreshold
      · by_cases h3 : isSafeToSleep topo s id = true
        · exact Or.inr (Or.inr ⟨h3, by simp [linkStep, h, h1, h2, h3]⟩)
        · exact Or.inl (by simp [linkStep, h, h1, h2, h3])
      · exact Or.inl (by simp [linkStep, h, h1, h2])

theorem lookupState_linkStep_ne (topo : List (ℕ × Edge)) (s : States) {id l : ℕ}
    (h : l ≠ id) : lookupState (linkStep topo s id) l = lookupState s l := by
  rcases linkStep_cases topo s id with hc | hc | ⟨-, hc⟩ <;>
    simp [hc, lookupState_setActive, h]

theorem map_fst_linkStep (topo : List (ℕ × Edge)) (s : States) (id : ℕ) :
    (linkStep topo s id).map Prod.fst = s.map Prod.fst := by
  rcases linkStep_cases topo s id with hc | hc | ⟨-, hc⟩ <;>
    simp [hc, map_fst_setActive]

theorem util_linkStep (topo : List (ℕ × Edge)) (s : States) (id l : ℕ) :
    (lookupState (linkStep topo s id) l).map (·.utilization) =
      (lookupState s l).map (·.utilization) := by
  rcases linkStep_cases topo s id with hc | hc | ⟨-, hc⟩ <;> rw [hc] <;> try rfl
  all_goals
    rw [lookupState_setActive]
    by_cases h : l = id
    · subst h; cases lookupState s l <;> simp
    · simp [h]

theorem foldl_linkStep_lookup_ne (topo : List (ℕ × Edge)) (ids : List ℕ) :
    ∀ (s : States) (l : ℕ), l ∉ ids →
      lookupState (ids.foldl (linkStep topo) s) l = lookupState s l := by
  induction ids with
  | nil => intro s l _; rfl
  | cons id rest ih =>
    intro s l h
    rw [List.mem_cons, not_or] at h
    rw [List.foldl_cons, ih _ _ h.2, lookupState_linkStep_ne topo s h.1]

theorem map_fst_foldl_linkStep (topo : List (ℕ × Edge)) (ids : List ℕ) :
    ∀ s : States, (ids.foldl (linkStep topo) s).map Prod.fst = s.map Prod.fst := by
  induction ids with
  | nil => intro s; rfl
  | cons id rest ih => intro s; rw [List.foldl_cons, ih, map_fst_linkStep]

theorem util_foldl_linkStep (topo : List (ℕ × Edge)) (ids : List ℕ) :
    ∀ (s : States) (l : ℕ),
      (lookupState (ids.foldl (linkStep topo) s) l).map (·.utilization) =
        (lookupState s l).map (·.utilization) := by
  induction ids with
  | nil => intro s l; rfl
  | cons id rest ih => intro s l; rw [List.foldl_cons, ih, util_linkStep]

theorem map_fst_linkManagement (topo : List (ℕ × Edge)) (s : States) :
    (linkManagement topo s).map Prod.fst = s.map Prod.fst :=
  map_fst_foldl_linkStep topo (s.map Prod.fst) s

/-! ## Lemmas about prediction ingestion -/

theorem updatePredictions_nil (s : States) : updatePredictions [] s = s := rfl

theorem updatePredictions_cons (pred : ℕ × ℚ) (preds : List (ℕ × ℚ)) (s : States) :
    updatePredictions (pred :: preds) s =
      updatePredictions preds
        (if (lookupState s pred.1).isSome then setUtil s pred.1 pred.2 else s) := by
  simp only [updatePredictions, List.foldl_cons]

theorem updatePredictions_append (p q : List (ℕ × ℚ)) (s : States) :
    updatePredictions (p ++ q) s = updatePredictions q (updatePredictions p s) :=
  List.foldl_append ..

theorem map_fst_updatePredictions (preds : List (ℕ × ℚ)) :
    ∀ s : States, (updatePredictions preds s).map Prod.fst = s.map Prod.fst := by
  induction preds with
  | nil => intro s; rfl
  | cons pred rest ih =>
    intro s
    rw [updatePredictions_cons]
    by_cases h : (lookupState s pred.1).isSome <;> simp [h, ih, map_fst_setUtil]

theorem active_updatePredictions (preds : List (ℕ × ℚ)) :
    ∀ (s : States) (l : ℕ),
      (lookupState (updatePredictions preds s) l).map (·.active) =
        (lookupState s l).map (·.active) := by
  induction preds with
  | nil => intro s l; rfl
  | cons pred rest ih =>
    intro s l
    rw [updatePredictions_cons]
    by_cases h : (lookupState s pred.1).isSome
    · rw [if_pos h, ih, lookupState_setUtil]
      by_cases hl : l = pred.1
      · subst hl
        rw [if_pos rfl]
        cases hx : lookupState s pred.1 <;> simp
      · rw [if_neg hl]
    · rw [if_neg h, ih]

theorem isSome_updatePredictions (preds : List (ℕ × ℚ)) (s : States) (l : ℕ) :
    (lookupState (updatePredictions preds s) l).isSome = (lookupState s l).isSome := by
  have h := active_updatePredictions preds s l
  cases h1 : lookupState (updatePredictions preds s) l <;>
    cases h2 : lookupState s l <;> simp [h1, h2] at h ⊢

theorem lookup_updatePredictions_not_mem (preds : List (ℕ × ℚ)) :
    ∀ (s : States) (l : ℕ), l ∉ preds.map Prod.fst →
      lookupState (updatePredictions preds s) l = lookupState s l := by
  induction preds with
  | nil => intro s l _; rfl
  | cons pred rest ih =>
    intro s l h
    rw [List.map_cons, List.mem_cons, not_or] at h
    rw [updatePredictions_cons]
    by_cases hs : (lookupState s pred.1).isSome
    · rw [if_pos hs, ih _ _ h.2, lookupState_setUtil, if_neg h.1]
    · rw [if_neg hs, ih _ _ h.2]

/-! ## Lemmas about the initial states and reachable traces -/

theorem lookupState_initStates (topo : List (ℕ × Edge)) (l : ℕ) :
    lookupState (initStates topo) l = (edgeOf topo l).map (fun _ => ⟨true, 0⟩) := by
  induction topo with
  | nil => rfl
  | cons p rest ih =>
    show lookupState ((p.1, (⟨true, 0⟩ : LinkState)) :: initStates rest) l = _
    by_cases hpl : p.1 = l
    · simp [lookupState, edgeOf, hpl]
    · simp only [lookupState, edgeOf, hpl, if_false]
      exact ih

theorem map_fst_exec (s : States) (st : Step) : (exec s st).map Prod.fst = s.map Prod.fst := by
  cases st with
  | forecast preds => exact map_fst_updatePredictions preds s
  | manage => exact map_fst_linkManagement buildTopology s

theorem map_fst_run (tr : List Step) : (run tr).map Prod.fst = topoIds := by
  have h : ∀ (t : List Step) (s : States), (t.foldl exec s).map Prod.fst = s.map Prod.fst := by
    intro t
    induction t with
    | nil => intro s; rfl
    | cons st rest ih => intro s; rw [List.foldl_cons, ih, map_fst_exec]
  rw [run, h]
  rfl

theorem run_append (tr tr' : List Step) : run (tr ++ tr') = tr'.foldl exec (run tr) :=
  List.foldl_append ..

/-! ## Wake behaviour (the state controller never leaves a high-utilization
link asleep) -/

theorem linkStep_high_util (topo : List (ℕ × Edge)) (s : States) (id : ℕ) (st : LinkState)
    (hl : lookupState s id = some st) (hu : sleepThreshold ≤ st.utilization) :
    lookupState (linkStep topo s id) id = some { st with active := true } := by
  cases ha : st.active
  · have h1 : st.active = false ∧ sleepThreshold ≤ st.utilization := ⟨ha, hu⟩
    rw [show linkStep topo s id = setActive s id true by simp [linkStep, hl, h1],
      lookupState_setActive, if_pos rfl, hl]
    rfl
  · have h1 : ¬(st.active = false ∧ sleepThreshold ≤ st.utilization) := by simp [ha]
    have h2 : ¬(st.active = true ∧ st.utilization < sleepThreshold) := by
      simp [ha, not_lt.mpr hu]
    rw [show linkStep topo s id = s by simp [linkStep, hl, h1, h2], hl]
    cases st
    simp_all

theorem foldl_linkStep_stays_active_high (topo : List (ℕ × Edge)) (ids : List ℕ) :
    ∀ (s : States) (l : ℕ) (st : LinkState), lookupState s l = some st →
      st.active = true → sleepThreshold ≤ st.utilization →
      lookupState (ids.foldl (linkStep topo) s) l = some st := by
  induction ids with
  | nil => intro s l st hl _ _; exact hl
  | cons id rest ih =>
    intro s l st hl ha hu
    rw [List.foldl_cons]
    by_cases hid : l = id
    · subst hid
      have h2 := linkStep_high_util topo s l st hl hu
      have hst : ({ st with active := true } : LinkState) = st := by cases st; simp_all
      rw [hst] at h2
      exact ih _ _ _ h2 ha hu
    · exact ih _ _ _ (by rw [lookupState_linkStep_ne topo s hid, hl]) ha hu

theorem foldl_linkStep_wakes (topo : List (ℕ × Edge)) (ids : List ℕ) :
    ∀ (s : States) (l : ℕ) (st : LinkState), l ∈ ids → lookupState s l = some st →
      sleepThreshold ≤ st.utilization →
      lookupState (ids.foldl (linkStep topo) s) l = some { st with active := true } := by
  induction ids with
  | nil => intro s l st hmem; simp at hmem
  | cons id rest ih =>
    intro s l st hmem hl hu
    rw [List.foldl_cons]
    by_cases hid : l = id
    · subst hid
      exact foldl_linkStep_stays_active_high topo rest _ _ _
        (linkStep_high_util topo s l st hl hu) rfl hu
    · rcases List.mem_cons.mp hmem with h | h
      · exact absurd h hid
      · exact ih _ _ _ h (by rw [lookupState_linkStep_ne topo s hid, hl]) hu

/-! ## Fail-closed behaviour (a link the evaluator cannot classify) -/

theorem isSafeToSleep_unclassified (topo : List (ℕ × Edge)) (id : ℕ) (e : Edge)
    (he : edgeOf topo id = some e) (hB : 0 ≤ e.dpidB)
    (h37 : ¬(id = 37 ∨ id = 38 ∨ id = 39)) (hagg : ¬(25 ≤ id ∧ id ≤ 36)) :
    ∀ s : States, isSafeToSleep topo s id = false := by
  intro s
  simp [isSafeToSleep, he, not_lt.mpr hB, h37, hagg]

theorem foldl_linkStep_stays_active_unsafe (topo : List (ℕ × Edge)) (ids : List ℕ)
    (l : ℕ) (hsafe : ∀ s' : States, isSafeToSleep topo s' l = false) :
    ∀ (s : States) (st : LinkState), lookupState s l = some st → st.active = true →
      lookupState (ids.foldl (linkStep topo) s) l = some st := by
  induction ids with
  | nil => intro s st hl _; exact hl
  | cons id rest ih =>
    intro s st hl ha
    rw [List.foldl_cons]
    by_cases hid : l = id
    · subst hid
      rcases linkStep_cases topo s l with hc | hc | ⟨hsl, -⟩
    -- the wake branch requires `st.active = false`, so it leaves the entry intact
      · exact ih _ _ (by rw [hc, hl]) ha
      · have h1 : ¬(st.active = false ∧ sleepThreshold ≤ st.utilization) := by simp [ha]
        by_cases h2 : st.active = true ∧ st.utilization < sleepThreshold
        · have : linkStep topo s l = s := by simp [linkStep, hl, h1, h2, hsafe s]
          exact ih _ _ (by rw [this, hl]) ha
        · have : linkStep topo s l = s := by simp [linkStep, hl, h1, h2]
          exact ih _ _ (by rw [this, hl]) ha
      · rw [hsafe s] at hsl
        exact absurd hsl (by simp)
    · exact ih _ _ (by rw [lookupState_linkStep_ne topo s hid, hl]) ha

/-! ## The two access links of one host -/

section HostPair

/-- For the first access link of a host, the safety evaluator reduces to
"the second access link is currently active". -/
theorem isSafeToSleep_host_first {k l1 l2 : ℕ} (hk : 0 < k)
    (hrow : hostToLinks.lookup k = some [l1, l2]) (hne : l1 ≠ l2)
    (hd1 : (edgeOf buildTopology l1).map Edge.dpidB = some (-(k : ℤ)))
    (s : States) :
    isSafeToSleep buildTopology s l1 = activeD s l2 := by
  rcases hx : edgeOf buildTopology l1 with _ | e
  · rw [hx] at hd1; simp at hd1
  · rw [hx, Option.map_some'] at hd1
    replace hd1 : e.dpidB = -(k : ℤ) := by injection hd1
    have hneg : e.dpidB < 0 := by
      rw [hd1]
      exact neg_neg_iff_pos.mpr (by exact_mod_cast hk)
    have htn : (-e.dpidB).toNat = k := by rw [hd1, neg_neg, Int.toNat_natCast]
    simp only [isSafeToSleep, hx, if_pos hneg, htn, isSafeToSleepHostLink, hrow]
    simp [hne, Ne.symm hne]

/-- For the second access link of a host, the safety evaluator reduces to
"the first access link is currently active". -/
theorem isSafeToSleep_host_second {k l1 l2 : ℕ} (hk : 0 < k)
    (hrow : hostToLinks.lookup k = some [l1, l2]) (hne : l1 ≠ l2)
    (hd2 : (edgeOf buildTopology l2).map Edge.dpidB = some (-(k : ℤ)))
    (s : States) :
    isSafeToSleep buildTopology s l2 = activeD s l1 := by
  rcases hx : edgeOf buildTopology l2 with _ | e
  · rw [hx] at hd2; simp at hd2
  · rw [hx, Option.map_some'] at hd2
    replace hd2 : e.dpidB = -(k : ℤ) := by injection hd2
    have hneg : e.dpidB < 0 := by
      rw [hd2]
      exact neg_neg_iff_pos.mpr (by exact_mod_cast hk)
    have htn : (-e.dpidB).toNat = k := by rw [hd2, neg_neg, Int.toNat_natCast]
    simp only [isSafeToSleep, hx, if_pos hneg, htn, isSafeToSleepHostLink, hrow]
    simp [hne, Ne.symm hne]

/-- Once at most one of the two access links is active (both below the
threshold), no step of the cycle changes either entry again. -/
theorem linkStep_pair_preserved {k l1 l2 : ℕ} (hk : 0 < k)
    (hrow : hostToLinks.lookup k = some [l1, l2]) (hne : l1 ≠ l2)
    (hd1 : (edgeOf buildTopology l1).map Edge.dpidB = some (-(k : ℤ)))
    (hd2 : (edgeOf buildTopology l2).map Edge.dpidB = some (-(k : ℤ)))
    (s : States) (st1 st2 : LinkState) (id : ℕ)
    (h1 : lookupState s l1 = some st1) (h2 : lookupState s l2 = some st2)
    (hu1 : st1.utilization < sleepThreshold) (hu2 : st2.utilization < sleepThreshold)
    (hnot : st1.active = false ∨ st2.active = false) :
    lookupState (linkStep buildTopology s id) l1 = some st1 ∧
      lookupState (linkStep buildTopology s id) l2 = some st2 := by
  by_cases hid1 : id = l1
  · rw [hid1]
    cases ha1 : st1.active
    · have heq : linkStep buildTopology s l1 = s := by
        simp [linkStep, h1, ha1, not_le.mpr hu1]
      rw [heq]
      exact ⟨h1, h2⟩
    · have ha2 : st2.active = false := by
        rcases hnot with h | h
        · rw [h] at ha1; cases ha1
        · exact h
      have hsafe : isSafeToSleep buildTopology s l1 = false := by
        rw [isSafeToSleep_host_first hk hrow hne hd1 s]
        simp [activeD, h2, ha2]
      have heq : linkStep buildTopology s l1 = s := by
        simp [linkStep, h1, ha1, hu1, hsafe]
      rw [heq]
      exact ⟨h1, h2⟩
  · by_cases hid2 : id = l2
    · rw [hid2]
      cases ha2 : st2.active
      · have heq : linkStep buildTopology s l2 = s := by
          simp [linkStep, h2, ha2, not_le.mpr hu2]
        rw [heq]
        exact ⟨h1, h2⟩
      · have ha1 : st1.active = false := by
          rcases hnot with h | h
          · exact h
          · rw [h] at ha2; cases ha2
        have hsafe : isSafeToSleep buildTopology s l2 = false := by
          rw [isSafeToSleep_host_second hk hrow hne hd2 s]
          simp [activeD, h1, ha1]
        have heq : linkStep buildTopology s l2 = s := by
          simp [linkStep, h2, ha2, hu2, hsafe]
        rw [heq]
        exact ⟨h1, h2⟩
    · rw [lookupState_linkStep_ne _ _ (fun h => hid1 h.symm),
        lookupState_linkStep_ne _ _ (fun h => hid2 h.symm)]
      exact ⟨h1, h2⟩

theorem foldl_linkStep_pair_absorb {k l1 l2 : ℕ} (hk : 0 < k)
    (hrow : hostToLinks.lookup k = some [l1, l2]) (hne : l1 ≠ l2)
    (hd1 : (edgeOf buildTopology l1).map Edge.dpidB = some (-(k : ℤ)))
    (hd2 : (edgeOf buildTopology l2).map Edge.dpidB = some (-(k : ℤ)))
    (ids : List ℕ) :
    ∀ (s : States) (st1 st2 : LinkState),
      lookupState s l1 = some st1 → lookupState s l2 = some st2 →
      st1.utilization < sleepThreshold → st2.utilization < sleepThreshold →
      (st1.active = false ∨ st2.active = false) →
      lookupState (ids.foldl (linkStep buildTopology) s) l1 = some st1 ∧
        lookupState (ids.foldl (linkStep buildTopology) s) l2 = some st2 := by
  induction ids with
  | nil => intro s st1 st2 h1 h2 _ _ _; exact ⟨h1, h2⟩
  | cons id rest ih =>
    intro s st1 st2 h1 h2 hu1 hu2 hnot
    obtain ⟨e1, e2⟩ :=
      linkStep_pair_preserved hk hrow hne hd1 hd2 s st1 st2 id h1 h2 hu1 hu2 hnot
    exact ih _ _ _ e1 e2 hu1 hu2 hnot

/-- With both access links active and idle, processing the first one puts
it to sleep and leaves the second untouched. -/
theorem linkStep_pair_sleep_first {k l1 l2 : ℕ} (hk : 0 < k)
    (hrow : hostToLinks.lookup k = some [l1, l2]) (hne : l1 ≠ l2)
    (hd1 : (edgeOf buildTopology l1).map Edge.dpidB = some (-(k : ℤ)))
    (_hd2 : (edgeOf buildTopology l2).map Edge.dpidB = some (-(k : ℤ)))
    (s : States) (st1 st2 : LinkState)
    (h1 : lookupState s l1 = some st1) (h2 : lookupState s l2 = some st2)
    (ha1 : st1.active = true) (ha2 : st2.active = true)
    (hu1 : st1.utilization < sleepThreshold) :
    lookupState (linkStep buildTopology s l1) l1 = some { st1 with active := false } ∧
      lookupState (linkStep buildTopology s l1) l2 = some st2 := by
  have hsafe : isSafeToSleep buildTopology s l1 = true := by
    rw [isSafeToSleep_host_first hk hrow hne hd1 s]
    simp [activeD, h2, ha2]
  have hstep : linkStep buildTopology s l1 = setActive s l1 false := by
    simp [linkStep, h1, ha1, hu1, hsafe]
  rw [hstep, lookupState_setActive, lookupState_setActive, if_pos rfl,
    if_neg (Ne.symm hne), h1, h2]
  exact ⟨rfl, rfl⟩

/-- The full cycle on a state whose two access links are both active and
idle: the first goes to sleep, the second survives. -/
theorem host_pair_manage {k l1 l2 : ℕ} (hk : 0 < k)
    (hrow : hostToLinks.lookup k = some [l1, l2]) (hne : l1 ≠ l2)
    (hd1 : (edgeOf buildTopology l1).map Edge.dpidB = some (-(k : ℤ)))
    (hd2 : (edgeOf buildTopology l2).map Edge.dpidB = some (-(k : ℤ)))
    (s : States) (st1 st2 : LinkState)
    (hkeys : s.map Prod.fst = topoIds)
    (h1 : lookupState s l1 = some st1) (h2 : lookupState s l2 = some st2)
    (ha1 : st1.active = true) (ha2 : st2.active = true)
    (hu1 : st1.utilization < sleepThreshold) (hu2 : st2.utilization < sleepThreshold)
    (hsplit : topoIds = topoIds.take (l1 - 1) ++ l1 :: topoIds.drop l1)
    (hA1 : l1 ∉ topoIds.take (l1 - 1)) (hA2 : l2 ∉ topoIds.take (l1 - 1)) :
    lookupState (linkManagement buildTopology s) l1 = some { st1 with active := false } ∧
      lookupState (linkManagement buildTopology s) l2 = some st2 := by
  rw [linkManagement, hkeys, hsplit, List.foldl_append, List.foldl_cons]
  have e1 : lookupState ((topoIds.take (l1 - 1)).foldl (linkStep buildTopology) s) l1 =
      some st1 := by
    rw [foldl_linkStep_lookup_ne _ _ _ _ hA1, h1]
  have e2 : lookupState ((topoIds.take (l1 - 1)).foldl (linkStep buildTopology) s) l2 =
      some st2 := by
    rw [foldl_linkStep_lookup_ne _ _ _ _ hA2, h2]
  obtain ⟨p1, p2⟩ :=
    linkStep_pair_sleep_first hk hrow hne hd1 hd2 _ st1 st2 e1 e2 ha1 ha2 hu1
  exact foldl_linkStep_pair_absorb hk hrow hne hd1 hd2 (topoIds.drop l1) _ _ _ p1 p2
    hu1 hu2 (Or.inl rfl)

/-- Any single management step keeps at least one of the two access links
active. -/
theorem linkStep_pair_or {k l1 l2 : ℕ} (hk : 0 < k)
    (hrow : hostToLinks.lookup k = some [l1, l2]) (hne : l1 ≠ l2)
    (hd1 : (edgeOf buildTopology l1).map Edge.dpidB = some (-(k : ℤ)))
    (hd2 : (edgeOf buildTopology l2).map Edge.dpidB = some (-(k : ℤ)))
    (s : States) (st1 st2 : LinkState) (id : ℕ)
    (h1 : lookupState s l1 = some st1) (h2 : lookupState s l2 = some st2)
    (hor : st1.active = true ∨ st2.active = true) :
    ∃ st1' st2', lookupState (linkStep buildTopology s id) l1 = some st1' ∧
      lookupState (linkStep buildTopology s id) l2 = some st2' ∧
      (st1'.active = true ∨ st2'.active = true) := by
  by_cases hid1 : id = l1
  · rw [hid1]
    rcases linkStep_cases buildTopology s l1 with hc | hc | ⟨hsl, hc⟩
    · exact ⟨st1, st2, by rw [hc]; exact h1, by rw [hc]; exact h2, hor⟩
    · refine ⟨{ st1 with active := true }, st2, ?_, ?_, Or.inl rfl⟩
      · rw [hc, lookupState_setActive, if_pos rfl, h1]; rfl
      · rw [hc, lookupState_setActive, if_neg (Ne.symm hne)]; exact h2
    · have h2a : st2.active = true := by
        rw [isSafeToSleep_host_first hk hrow hne hd1 s] at hsl
        simpa [activeD, h2] using hsl
      refine ⟨{ st1 with active := false }, st2, ?_, ?_, Or.inr h2a⟩
      · rw [hc, lookupState_setActive, if_pos rfl, h1]; rfl
      · rw [hc, lookupState_setActive, if_neg (Ne.symm hne)]; exact h2
  · by_cases hid2 : id = l2
    · rw [hid2]
      rcases linkStep_cases buildTopology s l2 with hc | hc | ⟨hsl, hc⟩
      · exact ⟨st1, st2, by rw [hc]; exact h1, by rw [hc]; exact h2, hor⟩
      · refine ⟨st1, { st2 with active := true }, ?_, ?_, Or.inr rfl⟩
        · rw [hc, lookupState_setActive, if_neg hne]; exact h1
        · rw [hc, lookupState_setActive, if_pos rfl, h2]; rfl
      · have h1a : st1.active = true := by
          rw [isSafeToSleep_host_second hk hrow hne hd2 s] at hsl
          simpa [activeD, h1] using hsl
        refine ⟨st1, { st2 with active := false }, ?_, ?_, Or.inl h1a⟩
        · rw [hc, lookupState_setActive, if_neg hne]; exact h1
        · rw [hc, lookupState_setActive, if_pos rfl, h2]; rfl
    · exact ⟨st1, st2, by rw [lookupState_linkStep_ne _ _ (fun h => hid1 h.symm)]; exact h1,
        by rw [lookupState_linkStep_ne _ _ (fun h => hid2 h.symm)]; exact h2, hor⟩

theorem foldl_linkStep_pair_or {k l1 l2 : ℕ} (hk : 0 < k)
    (hrow : hostToLinks.lookup k = some [l1, l2]) (hne : l1 ≠ l2)
    (hd1 : (edgeOf buildTopology l1).map Edge.dpidB = some (-(k : ℤ)))
    (hd2 : (edgeOf buildTopology l2).map Edge.dpidB = some (-(k : ℤ)))
    (ids : List ℕ) :
    ∀ (s : States) (st1 st2 : LinkState),
      lookupState s l1 = some st1 → lookupState s l2 = some st2 →
      (st1.active = true ∨ st2.active = true) →
      ∃ st1' st2', lookupState (ids.foldl (linkStep buildTopology) s) l1 = some st1' ∧
        lookupState (ids.foldl (linkStep buildTopology) s) l2 = some st2' ∧
        (st1'.active = true ∨ st2'.active = true) := by
  induction ids with
  | nil => intro s st1 st2 h1 h2 hor; exact ⟨st1, st2, h1, h2, hor⟩
  | cons id rest ih =>
    intro s st1 st2 h1 h2 hor
    obtain ⟨st1', st2', e1, e2, hor'⟩ :=
      linkStep_pair_or hk hrow hne hd1 hd2 s st1 st2 id h1 h2 hor
    exact ih _ _ _ e1 e2 hor'

/-- In every state reachable by the control loop, at least one of the two
access links of the host is active. -/
theorem run_pair_or {k l1 l2 : ℕ} (hk : 0 < k)
    (hrow : hostToLinks.lookup k = some [l1, l2]) (hne : l1 ≠ l2)
    (hd1 : (edgeOf buildTopology l1).map Edge.dpidB = some (-(k : ℤ)))
    (hd2 : (edgeOf buildTopology l2).map Edge.dpidB = some (-(k : ℤ)))
    (tr : List Step) :
    ∃ st1 st2, lookupState (run tr) l1 = some st1 ∧
      lookupState (run tr) l2 = some st2 ∧
      (st1.active = true ∨ st2.active = true) := by
  have hbase : ∀ l : ℕ, (edgeOf buildTopology l).map Edge.dpidB = some (-(k : ℤ)) →
      lookupState initialStates l = some ⟨true, 0⟩ := by
    intro l hd
    rcases hx : edgeOf buildTopology l with _ | e
    · rw [hx] at hd; simp at hd
    · rw [initialStates, lookupState_initStates, hx]; rfl
  have hstep : ∀ (s : States) (st : Step),
      (∃ st1 st2, lookupState s l1 = some st1 ∧ lookupState s l2 = some st2 ∧
        (st1.active = true ∨ st2.active = true)) →
      ∃ st1 st2, lookupState (exec s st) l1 = some st1 ∧
        lookupState (exec s st) l2 = some st2 ∧
        (st1.active = true ∨ st2.active = true) := by
    rintro s st ⟨st1, st2, h1, h2, hor⟩
    cases st with
    | forecast preds =>
      have hget : ∀ (l : ℕ) (stl : LinkState), lookupState s l = some stl →
          ∃ stl', lookupState (updatePredictions preds s) l = some stl' ∧
            stl'.active = stl.active := by
        intro l stl hls
        have hm := active_updatePredictions preds s l
        rw [hls] at hm
        cases hx : lookupState (updatePredictions preds s) l with
        | none => rw [hx] at hm; exact absurd hm (by simp)
        | some v =>
          rw [hx] at hm
          exact ⟨v, rfl, by simpa using hm⟩
      obtain ⟨st1', e1, hae1⟩ := hget l1 st1 h1
      obtain ⟨st2', e2, hae2⟩ := hget l2 st2 h2
      exact ⟨st1', st2', e1, e2, by rw [hae1, hae2]; exact hor⟩
    | manage =>
      exact foldl_linkStep_pair_or hk hrow hne hd1 hd2 _ s st1 st2 h1 h2 hor
  have hmain : ∀ (t : List Step) (s : States),
      (∃ st1 st2, lookupState s l1 = some st1 ∧ lookupState s l2 = some st2 ∧
        (st1.active = true ∨ st2.active = true)) →
      ∃ st1 st2, lookupState (t.foldl exec s) l1 = some st1 ∧
        lookupState (t.foldl exec s) l2 = some st2 ∧
        (st1.active = true ∨ st2.active = true) := by
    intro t
    induction t with
    | nil => intro s h; exact h
    | cons st rest ih =>
      intro s h
      exact ih _ (hstep s st h)
  exact hmain tr initialStates
    ⟨⟨true, 0⟩, ⟨true, 0⟩, hbase l1 hd1, hbase l2 hd2, Or.inl rfl⟩

end HostPair

/-! ## The twelve host rows of the access-link table -/

theorem mem_of_lookup {l : List (ℕ × List ℕ)} {a : ℕ} {v : List ℕ}
    (h : l.lookup a = some v) : (a, v) ∈ l := by
  induction l with
  | nil => simp [List.lookup] at h
  | cons p rest ih =>
    rcases p with ⟨key, val⟩
    simp only [List.lookup] at h
    by_cases hk : (a == key) = true
    · have hka : a = key := eq_of_beq hk
      rw [hk] at h
      simp only [Option.some.injEq] at h
      subst hka
      subst h
      exact List.mem_cons_self _ _
    · rw [Bool.not_eq_true] at hk
      rw [hk] at h
      simp only at h
      exact List.mem_cons_of_mem _ (ih h)

/-- The decidable facts about each row of `host_to_links` that the pair
lemmas consume: the host index is positive, the two links differ, both
links end at that host in the discovered topology, and the first link
precedes the second in the insertion order of the link map. -/
theorem hostRow_facts {k l1 l2 : ℕ} (h : hostToLinks.lookup k = some [l1, l2]) :
    0 < k ∧ l1 ≠ l2 ∧
      (edgeOf buildTopology l1).map Edge.dpidB = some (-(k : ℤ)) ∧
      (edgeOf buildTopology l2).map Edge.dpidB = some (-(k : ℤ)) ∧
      topoIds = topoIds.take (l1 - 1) ++ l1 :: topoIds.drop l1 ∧
      l1 ∉ topoIds.take (l1 - 1) ∧ l2 ∉ topoIds.take (l1 - 1) ∧
      topoIds.indexOf l1 < topoIds.indexOf l2 := by
  have hm := mem_of_lookup h
  simp only [hostToLinks, List.mem_cons, List.not_mem_nil, or_false] at hm
  rcases hm with hm | hm | hm | hm | hm | hm | hm | hm | hm | hm | hm | hm <;>
    (simp only [Prod.mk.injEq, List.cons.injEq, and_true] at hm;
      obtain ⟨rfl, rfl, rfl⟩ := hm; decide)

/-! ## A cut certifies non-reachability -/

theorem Reaches.mem_iff_of_cut {E : List (ℤ × ℤ)} {S : List ℤ}
    (hcut : ∀ e ∈ E, (e.1 ∈ S ↔ e.2 ∈ S)) {a b : ℤ} (h : Reaches E a b) :
    (a ∈ S ↔ b ∈ S) := by
  induction h with
  | refl => exact Iff.rfl
  | fwd hr hmem ih => exact ih.trans (hcut _ hmem)
  | bwd hr hmem ih => exact ih.trans (hcut _ hmem).symm

/-! ## Energy accounting -/

theorem calcEnergy_foldl (s : States) :
    ∀ acc : ℕ × ℕ × ℕ,
      s.foldl
        (fun acc p =>
          if p.2.active then (acc.1 + 100, acc.2.1 + 1, acc.2.2)
          else (acc.1 + 10, acc.2.1, acc.2.2 + 1)) acc =
      (acc.1 + 100 * s.countP (fun p => p.2.active) + 10 * s.countP (fun p => !p.2.active),
       acc.2.1 + s.countP (fun p => p.2.active),
       acc.2.2 + s.countP (fun p => !p.2.active)) := by
  induction s with
  | nil => intro acc; simp
  | cons p rest ih =>
    intro acc
    rw [List.foldl_cons]
    cases hpa : p.2.active <;>
      simp [hpa, ih, List.countP_cons, Prod.ext_iff] <;> omega

/-! ## Utilization bounds -/

theorem utilD_eq_of_map_util {s s' : States} {l : ℕ}
    (h : (lookupState s' l).map (·.utilization) = (lookupState s l).map (·.utilization)) :
    utilD s' l = utilD s l := by
  cases h1 : lookupState s' l <;> cases h2 : lookupState s l <;>
    rw [h1, h2] at h <;> simp at h <;> simp [utilD, h1, h2, h]

theorem utilD_linkManagement (topo : List (ℕ × Edge)) (s : States) (l : ℕ) :
    utilD (linkManagement topo s) l = utilD s l :=
  utilD_eq_of_map_util (util_foldl_linkStep topo (s.map Prod.fst) s l)

theorem utilD_setUtil (s : States) (id l : ℕ) (v : ℚ) :
    utilD (setUtil s id v) l = v ∨ utilD (setUtil s id v) l = utilD s l := by
  simp only [utilD]
  rw [lookupState_setUtil]
  by_cases hl : l = id
  · rw [if_pos hl]
    cases lookupState s l with
    | none => right; rfl
    | some st => left; rfl
  · rw [if_neg hl]
    right
    rfl

theorem utilD_updatePredictions_range (preds : List (ℕ × ℚ)) :
    ∀ (s : States) (l : ℕ), (∀ pr ∈ preds, 0 ≤ pr.2 ∧ pr.2 ≤ 1) →
      0 ≤ utilD s l ∧ utilD s l ≤ 1 →
      0 ≤ utilD (updatePredictions preds s) l ∧ utilD (updatePredictions preds s) l ≤ 1 := by
  induction preds with
  | nil => intro s l _ hs; exact hs
  | cons pred rest ih =>
    intro s l hr hs
    rw [updatePredictions_cons]
    have hrest : ∀ pr ∈ rest, 0 ≤ pr.2 ∧ pr.2 ≤ 1 := fun pr hpr =>
      hr pr (List.mem_cons_of_mem _ hpr)
    by_cases hsome : (lookupState s pred.1).isSome = true
    · rw [if_pos hsome]
      refine ih _ _ hrest ?_
      rcases utilD_setUtil s pred.1 l pred.2 with hv | hv
      · rw [hv]; exact hr pred (List.mem_cons_self _ _)
      · rw [hv]; exact hs
    · rw [if_neg hsome]
      exact ih _ _ hrest hs

theorem utilD_initialStates (l : ℕ) : utilD initialStates l = 0 := by
  rw [utilD, initialStates, lookupState_initStates]
  cases edgeOf buildTopology l <;> rfl

/-- Along any trace whose forecast values all lie in `[0, 1]`, every
utilization stays in `[0, 1]`. -/
theorem run_util_range (tr : List Step)
    (hr : ∀ st ∈ tr, ∀ pr ∈ stepPreds st, 0 ≤ pr.2 ∧ pr.2 ≤ 1) (l : ℕ) :
    0 ≤ utilD (run tr) l ∧ utilD (run tr) l ≤ 1 := by
  have hmain : ∀ (t : List Step) (s : States),
      (∀ st ∈ t, ∀ pr ∈ stepPreds st, 0 ≤ pr.2 ∧ pr.2 ≤ 1) →
      (∀ l' : ℕ, 0 ≤ utilD s l' ∧ utilD s l' ≤ 1) →
      ∀ l' : ℕ, 0 ≤ utilD (t.foldl exec s) l' ∧ utilD (t.foldl exec s) l' ≤ 1 := by
    intro t
    induction t with
    | nil => intro s _ hs l'; exact hs l'
    | cons st rest ih =>
      intro s ht hs l'
      rw [List.foldl_cons]
      refine ih _ (fun st' h' pr hpr => ht st' (List.mem_cons_of_mem _ h') pr hpr) ?_ l'
      intro l''
      cases st with
      | forecast preds =>
        exact utilD_updatePredictions_range preds s l''
          (fun pr hpr => ht _ (List.mem_cons_self _ _) pr hpr) (hs l'')
      | manage =>
        show 0 ≤ utilD (linkManagement buildTopology s) l'' ∧
          utilD (linkManagement buildTopology s) l'' ≤ 1
        rw [utilD_linkManagement]
        exact hs l''
  exact hmain tr initialStates hr (fun l' => by rw [utilD_initialStates]; norm_num) l

/-- A link no forecast entry of the trace mentions keeps its initial
utilization, namely `0`. -/
theorem run_util_no_entry (tr : List Step) (l : ℕ)
    (h : ∀ st ∈ tr, ∀ pr ∈ stepPreds st, pr.1 ≠ l) :
    utilD (run tr) l = 0 := by
  have hmain : ∀ (t : List Step) (s : States),
      (∀ st ∈ t, ∀ pr ∈ stepPreds st, pr.1 ≠ l) →
      utilD (t.foldl exec s) l = utilD s l := by
    intro t
    induction t with
    | nil => intro s _; rfl
    | cons st rest ih =>
      intro s ht
      rw [List.foldl_cons, ih _ (fun st' h' => ht st' (List.mem_cons_of_mem _ h'))]
      cases st with
      | forecast preds =>
        have hnm : l ∉ preds.map Prod.fst := by
          intro hmem
          rcases List.mem_map.mp hmem with ⟨pr, hpr, hfst⟩
          exact ht _ (List.mem_cons_self _ _) pr hpr hfst
        show utilD (updatePredictions preds s) l = utilD s l
        simp only [utilD]
        rw [lookup_updatePredictions_not_mem preds s l hnm]
      | manage => exact utilD_linkManagement buildTopology s l
  rw [run, hmain tr initialStates h, utilD_initialStates]

/-! # The claims -/

/-- Claim C1 (code bug).  The claimed invariant — in every reachable state
the subgraph induced by the ACTIVE links keeps every host reachable from
every core node — fails on the code: after the very first link-management
cycle from the all-active initial state (with all utilizations still at
their default `0`), host `h11` (node `-11`) is unreachable from every core
switch (`1`, `2`, `3`) in the active subgraph.  The cause is the
link-numbering mismatch between `ryu_controller._build_topology`
(`link_25`–`27` core mesh, `link_28`–`39` aggregation uplinks) and the
hardcoded tables of `energy_manager` (`link_25`–`36` aggregation uplinks,
`link_37`–`39` core mesh): the cycle sleeps `link_38` and `link_39`, the
only uplinks of aggregation switch `s9`, isolating it together with the
surviving access links of `h5`, `h11` and `h12`. -/
theorem c1_active_subgraph_disconnects_host :
    (-11 : ℤ) ∈ hostDpids ∧
      ((1 : ℤ) ∈ coreDpids ∧ (2 : ℤ) ∈ coreDpids ∧ (3 : ℤ) ∈ coreDpids) ∧
      ¬ Reaches (activeEdges buildTopology (run [Step.manage])) 1 (-11) ∧
      ¬ Reaches (activeEdges buildTopology (run [Step.manage])) 2 (-11) ∧
      ¬ Reaches (activeEdges buildTopology (run [Step.manage])) 3 (-11) := by
  have hcut : ∀ e ∈ activeEdges buildTopology (run [Step.manage]),
      ((e.1 ∈ sleepIsland) ↔ (e.2 ∈ sleepIsland)) := by decide
  refine ⟨by decide, ⟨by decide, by decide, by decide⟩, ?_, ?_, ?_⟩ <;>
    · intro h
      exact absurd (Reaches.mem_iff_of_cut hcut h) (by decide)

/-- Claim C2, counterexample.  `link_25` is a core-mesh link of the
discovered topology (it joins core switches `1` and `2`), yet with its
sibling entry `link_26` inactive the safety evaluator answers `false` for
it: the evaluator's hardcoded id ranges classify `link_25` as an
aggregation uplink, so core-mesh links are *not* always safe to sleep. -/
theorem c2_core_mesh_not_always_safe :
    edgeOf buildTopology 25 = some ⟨1, 1, 2, 1⟩ ∧
      (1 : ℤ) ∈ coreDpids ∧ (2 : ℤ) ∈ coreDpids ∧
      isSafeToSleep buildTopology (setActive initialStates 26 false) 25 = false := by
  decide

/-- Claim C2 as amended.  The links the Safety Evaluator unconditionally
treats as core-mesh are exactly the hardcoded identifiers `link_37`,
`link_38`, `link_39`: for those, `canSleep` returns `true` regardless of
the current active-link set — but in the discovered topology these three
links are aggregation-to-core links (their second endpoints are the
aggregation switches `8` and `9`), not core-mesh links. -/
theorem c2_amended_hardcoded_core_mesh_ids_always_safe (s : States) :
    (isSafeToSleep buildTopology s 37 = true ∧
      isSafeToSleep buildTopology s 38 = true ∧
      isSafeToSleep buildTopology s 39 = true) ∧
    ((edgeOf buildTopology 37).map Edge.dpidB = some 8 ∧
      (edgeOf buildTopology 38).map Edge.dpidB = some 9 ∧
      (edgeOf buildTopology 39).map Edge.dpidB = some 9) := by
  have h37 : edgeOf buildTopology 37 = some ⟨3, 5, 8, 6⟩ := by decide
  have h38 : edgeOf buildTopology 38 = some ⟨2, 6, 9, 6⟩ := by decide
  have h39 : edgeOf buildTopology 39 = some ⟨3, 6, 9, 7⟩ := by decide
  refine ⟨⟨?_, ?_, ?_⟩, by decide, by decide, by decide⟩
  · simp [isSafeToSleep, h37]
  · simp [isSafeToSleep, h38]
  · simp [isSafeToSleep, h39]

/-- Claim C3 (confirmed).  A link the Safety Evaluator cannot classify —
its second endpoint is not a host (`dpid_b ≥ 0`), its id is not one of the
hardcoded core-mesh ids `37`–`39`, and its id is outside the aggregation
range `25`–`36` — always gets `canSleep = false`, and an ACTIVE such link
keeps its exact state entry across a whole link-management cycle, so it is
never transitioned to SLEEPING. -/
theorem c3_fail_closed_default (topo : List (ℕ × Edge)) (s : States) (id : ℕ)
    (e : Edge) (st : LinkState)
    (he : edgeOf topo id = some e) (hB : 0 ≤ e.dpidB)
    (h37 : ¬(id = 37 ∨ id = 38 ∨ id = 39)) (hagg : ¬(25 ≤ id ∧ id ≤ 36))
    (hl : lookupState s id = some st) (ha : st.active = true) :
    isSafeToSleep topo s id = false ∧
      lookupState (linkManagement topo s) id = some st :=
  ⟨isSafeToSleep_unclassified topo id e he hB h37 hagg s,
    foldl_linkStep_stays_active_unsafe topo (s.map Prod.fst) id
      (isSafeToSleep_unclassified topo id e he hB h37 hagg) s st hl ha⟩

/-- Witness for C3: a switch-to-switch link with id `40` (outside every
category) on a one-link topology is unsafe and survives the cycle. -/
theorem c3_fail_closed_default_witness :
    edgeOf [(40, ⟨1, 1, 2, 1⟩)] 40 = some ⟨1, 1, 2, 1⟩ ∧
      (0 : ℤ) ≤ (2 : ℤ) ∧
      (isSafeToSleep [(40, ⟨1, 1, 2, 1⟩)] [(40, ⟨true, 0⟩)] 40 = false ∧
        lookupState (linkManagement [(40, ⟨1, 1, 2, 1⟩)] [(40, ⟨true, 0⟩)]) 40 =
          some ⟨true, 0⟩) :=
  ⟨by decide, by decide,
    c3_fail_closed_default [(40, ⟨1, 1, 2, 1⟩)] [(40, ⟨true, 0⟩)] 40 ⟨1, 1, 2, 1⟩
      ⟨true, 0⟩ (by decide) (by decide) (by decide) (by decide) (by decide) rfl⟩

/-- Claim C4 (confirmed).  Wake monotonicity: whatever its prior power
state, a link whose utilization at evaluation time is at least the sleep
threshold is ACTIVE after the link-management cycle. -/
theorem c4_wake_monotonicity (s : States) (id : ℕ) (st : LinkState)
    (hl : lookupState s id = some st) (hu : sleepThreshold ≤ st.utilization) :
    activeD (linkManagement buildTopology s) id = true := by
  have hmem : id ∈ s.map Prod.fst := mem_map_fst_of_lookup hl
  have hw := foldl_linkStep_wakes buildTopology (s.map Prod.fst) s id st hmem hl hu
  rw [activeD, linkManagement, hw]
  rfl

/-- Witness for C4: `link_5` put to sleep by hand and given utilization
`1` is ACTIVE again after the cycle. -/
theorem c4_wake_monotonicity_witness :
    lookupState (setUtil (setActive initialStates 5 false) 5 1) 5 =
        some ⟨false, 1⟩ ∧
      sleepThreshold ≤ (1 : ℚ) ∧
      activeD (linkManagement buildTopology
        (setUtil (setActive initialStates 5 false) 5 1)) 5 = true :=
  ⟨by decide, by decide,
    c4_wake_monotonicity (setUtil (setActive initialStates 5 false) 5 1) 5
      ⟨false, 1⟩ (by decide) (by decide)⟩

/-- Claim C5 (confirmed).  For a host whose row of the access-link table
holds the two links `l1, l2`: if both are ACTIVE with utilization below the
threshold at the start of a cycle, then after that cycle exactly one of
them is SLEEPING and the other remains ACTIVE (in fact `l1` sleeps and
`l2` survives); and in every state reachable by any sequence of forecast
applications and management cycles, at least one of the two is ACTIVE. -/
theorem c5_host_redundancy_preservation (tr : List Step) (k l1 l2 : ℕ)
    (st1 st2 : LinkState)
    (hrow : hostToLinks.lookup k = some [l1, l2])
    (h1 : lookupState (run tr) l1 = some st1) (h2 : lookupState (run tr) l2 = some st2)
    (ha1 : st1.active = true) (ha2 : st2.active = true)
    (hu1 : st1.utilization < sleepThreshold) (hu2 : st2.utilization < sleepThreshold) :
    ((activeD (run (tr ++ [Step.manage])) l1 = false ∧
        activeD (run (tr ++ [Step.manage])) l2 = true) ∨
      (activeD (run (tr ++ [Step.manage])) l1 = true ∧
        activeD (run (tr ++ [Step.manage])) l2 = false)) ∧
    ∀ tr' : List Step, ∃ st1' st2',
      lookupState (run tr') l1 = some st1' ∧ lookupState (run tr') l2 = some st2' ∧
        (st1'.active = true ∨ st2'.active = true) := by
  obtain ⟨hk, hne, hd1, hd2, hsplit, hA1, hA2, hidx⟩ := hostRow_facts hrow
  have hrun : run (tr ++ [Step.manage]) = linkManagement buildTopology (run tr) := by
    rw [run_append]
    rfl
  obtain ⟨p1, p2⟩ := host_pair_manage hk hrow hne hd1 hd2 (run tr) st1 st2
    (map_fst_run tr) h1 h2 ha1 ha2 hu1 hu2 hsplit hA1 hA2
  refine ⟨Or.inl ⟨?_, ?_⟩, fun tr' => run_pair_or hk hrow hne hd1 hd2 tr'⟩
  · rw [hrun, activeD, p1]
    rfl
  · rw [hrun, activeD, p2]
    exact ha2

/-- Witness for C5: host `h1` with access links `link_1`, `link_2` in the
initial state (both active, utilization `0`). -/
theorem c5_host_redundancy_preservation_witness :
    hostToLinks.lookup 1 = some [1, 2] ∧
      lookupState (run []) 1 = some ⟨true, 0⟩ ∧
      lookupState (run []) 2 = some ⟨true, 0⟩ ∧
      (0 : ℚ) < sleepThreshold ∧
      (((activeD (run ([] ++ [Step.manage])) 1 = false ∧
          activeD (run ([] ++ [Step.manage])) 2 = true) ∨
        (activeD (run ([] ++ [Step.manage])) 1 = true ∧
          activeD (run ([] ++ [Step.manage])) 2 = false)) ∧
      ∀ tr' : List Step, ∃ st1' st2',
        lookupState (run tr') 1 = some st1' ∧ lookupState (run tr') 2 = some st2' ∧
          (st1'.active = true ∨ st2'.active = true)) :=
  ⟨by decide, by decide, by decide, by decide,
    c5_host_redundancy_preservation [] 1 1 2 ⟨true, 0⟩ ⟨true, 0⟩ (by decide)
      (by decide) (by decide) rfl rfl (by decide) (by decide)⟩

/-- Claim C6 (confirmed).  Prediction ingestion overwrites the utilization
of a link present in the state map; an entry with an identifier absent
from the map has no effect at all on the resulting state; and a link that
no forecast entry mentions keeps its previous entry unchanged. -/
theorem c6_prediction_ingestion (s : States) (i j l : ℕ) (v w : ℚ) (st : LinkState)
    (ps1 ps2 preds : List (ℕ × ℚ))
    (hi : lookupState s i = some st)
    (hj : lookupState s j = none)
    (hl : l ∉ preds.map Prod.fst) :
    lookupState (updatePredictions [(i, v)] s) i = some { st with utilization := v } ∧
      updatePredictions (ps1 ++ (j, w) :: ps2) s = updatePredictions (ps1 ++ ps2) s ∧
      lookupState (updatePredictions preds s) l = lookupState s l := by
  refine ⟨?_, ?_, lookup_updatePredictions_not_mem preds s l hl⟩
  · rw [updatePredictions_cons, if_pos (by rw [hi]; rfl), updatePredictions_nil,
      lookupState_setUtil, if_pos rfl, hi]
    rfl
  · have hs : (lookupState (updatePredictions ps1 s) j).isSome = false := by
      rw [isSome_updatePredictions, hj]
      rfl
    rw [updatePredictions_append, updatePredictions_cons, if_neg (by simp [hs]),
      updatePredictions_append]

/-- Witness for C6: on the initial states, a forecast entry for `link_1`
overwrites it, an entry keyed `99` is dropped without effect, and `link_7`
(absent from the forecast `[(2, 1)]`) keeps its entry. -/
theorem c6_prediction_ingestion_witness :
    lookupState initialStates 1 = some ⟨true, 0⟩ ∧
      lookupState initialStates 99 = none ∧
      (7 : ℕ) ∉ ([(2, 1)] : List (ℕ × ℚ)).map Prod.fst ∧
      (lookupState (updatePredictions [(1, sleepThreshold)] initialStates) 1 =
          some ⟨true, sleepThreshold⟩ ∧
        updatePredictions ([(2, 1)] ++ (99, 1) :: []) initialStates =
          updatePredictions ([(2, 1)] ++ []) initialStates ∧
        lookupState (updatePredictions [(2, 1)] initialStates) 7 =
          lookupState initialStates 7) :=
  ⟨by decide, by decide, by decide,
    c6_prediction_ingestion initialStates 1 99 7 sleepThreshold 1 ⟨true, 0⟩ [(2, 1)] []
      [(2, 1)] (by decide) (by decide) (by decide)⟩

/-- Claim C7 (confirmed).  The recorded energy is `100` per ACTIVE link
plus `10` per SLEEPING link, the returned active count is the number of
ACTIVE links, the metrics collector appends exactly one energy value, one
active count and one cycle index, and one full control cycle grows each
metrics series by exactly one record. -/
theorem c7_energy_accounting (s : States) (m : Metrics) (hour : ℕ)
    (preds : List (ℕ × ℚ)) :
    (calculateEnergyConsumption s).1 =
        100 * s.countP (fun p => p.2.active) + 10 * s.countP (fun p => !p.2.active) ∧
      (calculateEnergyConsumption s).2.1 = s.countP (fun p => p.2.active) ∧
      metricsCollector hour s m =
        { hourlyEnergy := m.hourlyEnergy ++ [(calculateEnergyConsumption s).1]
          activeLinksHistory :=
            m.activeLinksHistory ++ [(calculateEnergyConsumption s).2.1]
          timestamp := m.timestamp ++ [hour] } ∧
      ((runCycle hour preds s m).2.hourlyEnergy.length = m.hourlyEnergy.length + 1 ∧
        (runCycle hour preds s m).2.activeLinksHistory.length =
          m.activeLinksHistory.length + 1 ∧
        (runCycle hour preds s m).2.timestamp.length = m.timestamp.length + 1) := by
  have hfold := calcEnergy_foldl s (0, 0, 0)
  refine ⟨?_, ?_, rfl, ?_⟩
  · show (s.foldl _ (0, 0, 0)).1 = _
    rw [hfold]
    simp
  · show (s.foldl _ (0, 0, 0)).2.1 = _
    rw [hfold]
    simp
  · refine ⟨?_, ?_, ?_⟩ <;> simp [runCycle, metricsCollector]

/-- Claim C8, counterexample.  The snapshot whose topology mapping is
empty — a 200 response carrying `{"topology": {}}` — is accepted by the
topology build, which succeeds with an empty link map and empty link
states instead of failing with a `TopologyUnavailable` condition. -/
theorem c8_empty_snapshot_succeeds :
    getTopologyStep (RyuResponse.ok []) = some ([], []) := rfl

/-- Claim C8 as amended.  Topology build does not succeed on an
unreachable service or non-200 response (the poll yields nothing and the
loop retries), while every 200 response — including one whose topology
mapping is empty — succeeds and installs exactly the links of the mapping
with all-active zero-utilization states; no emptiness or well-formedness
validation occurs. -/
theorem c8_amended_build_accepts_any_ok_response (topo : List (ℕ × Edge)) :
    getTopologyStep RyuResponse.failure = none ∧
      getTopologyStep (RyuResponse.ok topo) = some (topo, initStates topo) :=
  ⟨rfl, rfl⟩

/-- Claim C9, counterexample.  Prediction ingestion stores forecast values
verbatim, without clamping: the reachable state after a single forecast
carrying the value `2` for `link_1` holds a utilization outside
`[0, 1]`. -/
theorem c9_utilization_exceeds_one :
    lookupState (run [Step.forecast [(1, 2)]]) 1 = some ⟨true, 2⟩ ∧
      ¬ ((2 : ℚ) ≤ 1) := by
  decide

/-- Claim C9 as amended.  Along every trace whose forecast values all lie
in `[0, 1]` (the range the external forecast interface promises), every
link's utilization lies in `[0, 1]` in the reached state; and a link for
which no forecast entry has been applied still has utilization `0`, its
topology-build default.  Unconditionally, ingestion performs no clamping,
so the `[0, 1]` bound holds only under that hypothesis on the inputs. -/
theorem c9_amended_utilization_bounds (tr : List Step) :
    ((∀ st ∈ tr, ∀ pr ∈ stepPreds st, 0 ≤ pr.2 ∧ pr.2 ≤ 1) →
      ∀ l : ℕ, 0 ≤ utilD (run tr) l ∧ utilD (run tr) l ≤ 1) ∧
    (∀ l : ℕ, (∀ st ∈ tr, ∀ pr ∈ stepPreds st, pr.1 ≠ l) → utilD (run tr) l = 0) :=
  ⟨fun hr l => run_util_range tr hr l, fun l h => run_util_no_entry tr l h⟩

/-- Witness for C9 (amended): the trace applying the in-range forecast
`[(3, 1/10)]` and one management cycle keeps all utilizations in `[0, 1]`,
and `link_5`, mentioned by no entry, still has utilization `0`. -/
theorem c9_amended_utilization_bounds_witness :
    (∀ l : ℕ, 0 ≤ utilD (run [Step.forecast [(3, sleepThreshold)], Step.manage]) l ∧
        utilD (run [Step.forecast [(3, sleepThreshold)], Step.manage]) l ≤ 1) ∧
      utilD (run [Step.forecast [(3, sleepThreshold)], Step.manage]) 5 = 0 :=
  ⟨(c9_amended_utilization_bounds [Step.forecast [(3, sleepThreshold)], Step.manage]).1
      (by decide),
    (c9_amended_utilization_bounds [Step.forecast [(3, sleepThreshold)], Step.manage]).2 5
      (by decide)⟩

/-- Claim C10 (confirmed).  The per-cycle step is deterministic — link
management applied after ingesting equal forecasts into equal state maps
yields equal results — and for a host row `[l1, l2]` with both links
ACTIVE below threshold in a reachable state, the link that transitions to
SLEEPING is `l1`, the one appearing strictly earlier in the insertion
order of the topology map, while `l2` stays ACTIVE: `l1`'s safety check
sees `l2` still active, and `l2`'s then sees `l1` already asleep. -/
theorem c10_deterministic_earlier_link_sleeps (s s' : States)
    (preds preds' : List (ℕ × ℚ)) (hs : s = s') (hp : preds = preds')
    (tr : List Step) (k l1 l2 : ℕ) (st1 st2 : LinkState)
    (hrow : hostToLinks.lookup k = some [l1, l2])
    (h1 : lookupState (run tr) l1 = some st1) (h2 : lookupState (run tr) l2 = some st2)
    (ha1 : st1.active = true) (ha2 : st2.active = true)
    (hu1 : st1.utilization < sleepThreshold) (hu2 : st2.utilization < sleepThreshold) :
    linkManagement buildTopology (updatePredictions preds s) =
        linkManagement buildTopology (updatePredictions preds' s') ∧
      topoIds.indexOf l1 < topoIds.indexOf l2 ∧
      activeD (run (tr ++ [Step.manage])) l1 = false ∧
      activeD (run (tr ++ [Step.manage])) l2 = true := by
  obtain ⟨hk, hne, hd1, hd2, hsplit, hA1, hA2, hidx⟩ := hostRow_facts hrow
  subst hs
  subst hp
  have hrun : run (tr ++ [Step.manage]) = linkManagement buildTopology (run tr) := by
    rw [run_append]
    rfl
  obtain ⟨p1, p2⟩ := host_pair_manage hk hrow hne hd1 hd2 (run tr) st1 st2
    (map_fst_run tr) h1 h2 ha1 ha2 hu1 hu2 hsplit hA1 hA2
  refine ⟨rfl, hidx, ?_, ?_⟩
  · rw [hrun, activeD, p1]
    rfl
  · rw [hrun, activeD, p2]
    exact ha2

/-- Witness for C10: host `h2` with access links `link_3`, `link_4` in the
initial state; `link_3` (earlier in insertion order) sleeps, `link_4`
survives. -/
theorem c10_deterministic_earlier_link_sleeps_witness :
    hostToLinks.lookup 2 = some [3, 4] ∧
      lookupState (run []) 3 = some ⟨true, 0⟩ ∧
      lookupState (run []) 4 = some ⟨true, 0⟩ ∧
      (linkManagement buildTopology (updatePredictions [] initialStates) =
          linkManagement buildTopology (updatePredictions [] initialStates) ∧
        topoIds.indexOf 3 < topoIds.indexOf 4 ∧
        activeD (run ([] ++ [Step.manage])) 3 = false ∧
        activeD (run ([] ++ [Step.manage])) 4 = true) :=
  ⟨by decide, by decide, by decide,
    c10_deterministic_earlier_link_sleeps initialStates initialStates [] [] rfl rfl
      [] 2 3 4 ⟨true, 0⟩ ⟨true, 0⟩ (by decide) (by decide) (by decide) rfl rfl
      (by decide) (by decide)⟩

end Backhaul
